import Mathlib

/-!
Verification of the validation engine of the data-alchemist-configurator
repository (src/lib/validations/validator.ts), shallowly embedded in Lean.

Modelling conventions:
* TypeScript `number` fields are embedded as `Int`; JavaScript falsiness of a
  number is `= 0`, of a string is `= ""`, and an array is always truthy (the
  source additionally tests `Array.isArray(x) && x.length === 0`).
* The `AttributesJSON` cell is an arbitrary runtime JavaScript value (the
  rule `validateBrokenJSON` inspects it with `typeof`), embedded as `JSValue`.
* JavaScript `Map` iteration order is insertion order; maps keyed by phase
  number are embedded as association lists where an update keeps the entry
  position and an insert appends at the end (`bumpKey`).
* `forEach`+`push` accumulation is embedded as `List.bind` / `List.filterMap`
  in the same iteration order.
-/

namespace DataAlchemist

/-- Runtime JavaScript value stored in a client's `AttributesJSON` cell.
`obj` is a well-formed mapping (a non-null JS object); the other
constructors are non-mapping runtime values that can reach the validator
when normalization is bypassed. -/
inductive JSValue where
  | undef : JSValue
  | nullv : JSValue
  | str : String → JSValue
  | num : Int → JSValue
  | boolv : Bool → JSValue
  | obj : List (String × String) → JSValue
deriving DecidableEq

/-- Test `typeof v === 'object' && v !== null` from the source: true exactly
for a well-formed (non-null object) mapping. -/
def JSValue.isWellFormedMapping : JSValue → Bool
  | .obj _ => true
  | _ => false

structure Client where
  ClientID : String
  ClientName : String
  PriorityLevel : Int
  RequestedTaskIDs : List String
  GroupTag : String
  AttributesJSON : JSValue
deriving DecidableEq

structure Worker where
  WorkerID : String
  WorkerName : String
  Skills : List String
  AvailableSlots : List Int
  MaxLoadPerPhase : Int
  WorkerGroup : String
  QualificationLevel : String
deriving DecidableEq

structure Task where
  TaskID : String
  TaskName : String
  Category : String
  Duration : Int
  RequiredSkills : List String
  PreferredPhases : List Int
  MaxConcurrent : Int
deriving DecidableEq

structure DataSet where
  clients : List Client
  workers : List Worker
  tasks : List Task
deriving DecidableEq

/-- The `type` field of a finding: `'error' | 'warning'`. -/
inductive FindingKind where
  | error : FindingKind
  | warning : FindingKind
deriving DecidableEq

/-- The `severity` field of a finding: `'low' | 'medium' | 'high'`. -/
inductive Severity where
  | low : Severity
  | medium : Severity
  | high : Severity
deriving DecidableEq

/-- The `entityType` field of a finding: `'client' | 'worker' | 'task'`. -/
inductive EntityType where
  | client : EntityType
  | worker : EntityType
  | task : EntityType
deriving DecidableEq

/-- The `ValidationError` interface of `src/types/index.ts`.  The optional
TypeScript field `field?` is embedded as `Option String`. -/
structure ValidationError where
  id : String
  type : FindingKind
  message : String
  field : Option String
  entityType : EntityType
  entityId : String
  severity : Severity
deriving DecidableEq

/-- The `ValidationResult` interface of `src/types/index.ts`. -/
structure ValidationResult where
  isValid : Bool
  errors : List ValidationError
  warnings : List ValidationError
deriving DecidableEq

/-! ## Rule 1: `validateMissingRequiredColumns` -/

def requiredClientFields : List String := ["ClientID", "ClientName", "PriorityLevel"]

def requiredWorkerFields : List String := ["WorkerID", "WorkerName", "Skills", "AvailableSlots"]

def requiredTaskFields : List String := ["TaskID", "TaskName", "Duration", "RequiredSkills"]

/-- The test `!client[field] || (Array.isArray(client[field]) && length === 0)`
resolved at each required client field: a string is falsy iff empty, a number
iff zero, and an array trips the emptiness test iff it has no elements. -/
def clientFieldMissing (c : Client) : String → Bool
  | "ClientID" => c.ClientID == ""
  | "ClientName" => c.ClientName == ""
  | "PriorityLevel" => c.PriorityLevel == 0
  | _ => false

def workerFieldMissing (w : Worker) : String → Bool
  | "WorkerID" => w.WorkerID == ""
  | "WorkerName" => w.WorkerName == ""
  | "Skills" => w.Skills.isEmpty
  | "AvailableSlots" => w.AvailableSlots.isEmpty
  | _ => false

def taskFieldMissing (t : Task) : String → Bool
  | "TaskID" => t.TaskID == ""
  | "TaskName" => t.TaskName == ""
  | "Duration" => t.Duration == 0
  | "RequiredSkills" => t.RequiredSkills.isEmpty
  | _ => false

def mkMissingClientFinding (f : String) (i : Nat) (c : Client) : ValidationError :=
  { id := "missing-client-" ++ f ++ "-" ++ toString i
    type := .error
    message := "Missing required field: " ++ f
    field := some f
    entityType := .client
    entityId := if c.ClientID == "" then "Row " ++ toString (i + 1) else c.ClientID
    severity := .high }

def mkMissingWorkerFinding (f : String) (i : Nat) (w : Worker) : ValidationError :=
  { id := "missing-worker-" ++ f ++ "-" ++ toString i
    type := .error
    message := "Missing required field: " ++ f
    field := some f
    entityType := .worker
    entityId := if w.WorkerID == "" then "Row " ++ toString (i + 1) else w.WorkerID
    severity := .high }

def mkMissingTaskFinding (f : String) (i : Nat) (t : Task) : ValidationError :=
  { id := "missing-task-" ++ f ++ "-" ++ toString i
    type := .error
    message := "Missing required field: " ++ f
    field := some f
    entityType := .task
    entityId := if t.TaskID == "" then "Row " ++ toString (i + 1) else t.TaskID
    severity := .high }

/-- `data.clients.forEach((client, index) => ...)` with the running index
made explicit. -/
def clientMissingFrom (i : Nat) : List Client → List ValidationError
  | [] => []
  | c :: rest =>
      requiredClientFields.filterMap
        (fun f => if clientFieldMissing c f then some (mkMissingClientFinding f i c) else none)
      ++ clientMissingFrom (i + 1) rest

def workerMissingFrom (i : Nat) : List Worker → List ValidationError
  | [] => []
  | w :: rest =>
      requiredWorkerFields.filterMap
        (fun f => if workerFieldMissing w f then some (mkMissingWorkerFinding f i w) else none)
      ++ workerMissingFrom (i + 1) rest

def taskMissingFrom (i : Nat) : List Task → List ValidationError
  | [] => []
  | t :: rest =>
      requiredTaskFields.filterMap
        (fun f => if taskFieldMissing t f then some (mkMissingTaskFinding f i t) else none)
      ++ taskMissingFrom (i + 1) rest

def validateMissingRequiredColumns (data : DataSet) : List ValidationError :=
  clientMissingFrom 0 data.clients
  ++ workerMissingFrom 0 data.workers
  ++ taskMissingFrom 0 data.tasks

/-! ## Rule 2: `validateDuplicateIDs` -/

/-- The scan each of the three collections performs: walk the IDs in order
with a set `seen` of already-established values; a falsy (empty) ID is
skipped, an ID already in `seen` is flagged, a fresh ID is added to `seen`.
Returns the flagged values in emission order. -/
def dupScan (seen : List String) : List String → List String
  | [] => []
  | v :: rest =>
      if v == "" then dupScan seen rest
      else if seen.contains v then v :: dupScan seen rest
      else dupScan (v :: seen) rest

def mkDupClientFinding (v : String) : ValidationError :=
  { id := "duplicate-client-" ++ v
    type := .error
    message := "Duplicate ClientID: " ++ v
    field := some ("ClientID")
    entityType := .client
    entityId := v
    severity := .high }

def mkDupWorkerFinding (v : String) : ValidationError :=
  { id := "duplicate-worker-" ++ v
    type := .error
    message := "Duplicate WorkerID: " ++ v
    field := some ("WorkerID")
    entityType := .worker
    entityId := v
    severity := .high }

def mkDupTaskFinding (v : String) : ValidationError :=
  { id := "duplicate-task-" ++ v
    type := .error
    message := "Duplicate TaskID: " ++ v
    field := some ("TaskID")
    entityType := .task
    entityId := v
    severity := .high }

def validateDuplicateIDs (data : DataSet) : List ValidationError :=
  (dupScan [] (data.clients.map Client.ClientID)).map mkDupClientFinding
  ++ (dupScan [] (data.workers.map Worker.WorkerID)).map mkDupWorkerFinding
  ++ (dupScan [] (data.tasks.map Task.TaskID)).map mkDupTaskFinding

/-! ## Rule 3: `validateMalformedLists` -/

def mkMalformedSlotFinding (w : Worker) (slot : Int) : ValidationError :=
  { id := "malformed-slots-" ++ w.WorkerID
    type := .error
    message := "Invalid AvailableSlot value: " ++ toString slot ++ ". Must be positive numbers."
    field := some ("AvailableSlots")
    entityType := .worker
    entityId := w.WorkerID
    severity := .medium }

/-- `isNaN(slot) || slot < 1`; an `Int`-valued slot is never NaN, so the
trigger is `slot < 1`. -/
def validateMalformedLists (data : DataSet) : List ValidationError :=
  data.workers.flatMap (fun w =>
    w.AvailableSlots.filterMap (fun slot =>
      if slot < 1 then some (mkMalformedSlotFinding w slot) else none))

/-! ## Rule 4: `validateOutOfRangeValues` -/

def mkPriorityRangeFinding (c : Client) : ValidationError :=
  { id := "priority-range-" ++ c.ClientID
    type := .error
    message := "PriorityLevel must be between 1-5, got: " ++ toString c.PriorityLevel
    field := some ("PriorityLevel")
    entityType := .client
    entityId := c.ClientID
    severity := .medium }

def mkDurationRangeFinding (t : Task) : ValidationError :=
  { id := "duration-range-" ++ t.TaskID
    type := .error
    message := "Duration must be at least 1, got: " ++ toString t.Duration
    field := some ("Duration")
    entityType := .task
    entityId := t.TaskID
    severity := .medium }

def validateOutOfRangeValues (data : DataSet) : List ValidationError :=
  data.clients.filterMap (fun c =>
    if c.PriorityLevel < 1 ∨ 5 < c.PriorityLevel then some (mkPriorityRangeFinding c) else none)
  ++ data.tasks.filterMap (fun t =>
    if t.Duration < 1 then some (mkDurationRangeFinding t) else none)

/-! ## Rule 5: `validateBrokenJSON` -/

/-- The source wraps a side-effect-free `typeof`/null test in `try`; the
guarded statement cannot throw, so the `catch` block that would push the
`broken-json-` finding is unreachable and each client contributes no
finding, whatever its `AttributesJSON` value is. -/
def validateBrokenJSON (data : DataSet) : List ValidationError :=
  data.clients.flatMap (fun _ => ([] : List ValidationError))

/-! ## Rule 6: `validateUnknownReferences` -/

def mkUnknownRefFinding (c : Client) (taskID : String) : ValidationError :=
  { id := "unknown-task-" ++ c.ClientID ++ "-" ++ taskID
    type := .error
    message := "Client references unknown TaskID: " ++ taskID
    field := some ("RequestedTaskIDs")
    entityType := .client
    entityId := c.ClientID
    severity := .high }

def validateUnknownReferences (data : DataSet) : List ValidationError :=
  let taskIDs := data.tasks.map Task.TaskID
  data.clients.flatMap (fun c =>
    c.RequestedTaskIDs.filterMap (fun taskID =>
      if taskIDs.contains taskID then none else some (mkUnknownRefFinding c taskID)))

/-! ## Rule 7: `validateOverloadedWorkers` -/

def mkOverloadedFinding (w : Worker) : ValidationError :=
  { id := "overloaded-worker-" ++ w.WorkerID
    type := .warning
    message := "Worker has " ++ toString w.AvailableSlots.length
      ++ " available slots but MaxLoadPerPhase is " ++ toString w.MaxLoadPerPhase
    field := some ("MaxLoadPerPhase")
    entityType := .worker
    entityId := w.WorkerID
    severity := .medium }

def validateOverloadedWorkers (data : DataSet) : List ValidationError :=
  data.workers.filterMap (fun w =>
    if (w.AvailableSlots.length : Int) < w.MaxLoadPerPhase
    then some (mkOverloadedFinding w) else none)

/-! ## Rule 8: `validatePhaseSlotSaturation` -/

/-- `map.set(k, (map.get(k) || 0) + v)` on a JavaScript `Map`: an existing
key keeps its position, a fresh key is appended (insertion order). -/
def bumpKey : List (Int × Int) → Int → Int → List (Int × Int)
  | [], k, v => [(k, v)]
  | (k', v') :: rest, k, v =>
      if k' = k then (k', v' + v) :: rest else (k', v') :: bumpKey rest k v

/-- `map.get(k) || 0`. -/
def lookupOr0 (m : List (Int × Int)) (k : Int) : Int :=
  match m.find? (fun kv => kv.1 == k) with
  | some kv => kv.2
  | none => 0

def phaseDemandMap (data : DataSet) : List (Int × Int) :=
  data.tasks.foldl (fun m t => t.PreferredPhases.foldl (fun m p => bumpKey m p t.Duration) m) []

def phaseSupplyMap (data : DataSet) : List (Int × Int) :=
  data.workers.foldl (fun m w => w.AvailableSlots.foldl (fun m p => bumpKey m p w.MaxLoadPerPhase) m) []

def mkSaturationFinding (phase demand supply : Int) : ValidationError :=
  { id := "phase-saturation-" ++ toString phase
    type := .warning
    message := "Phase " ++ toString phase ++ " is oversaturated: demand "
      ++ toString demand ++ " > supply " ++ toString supply
    field := none
    entityType := .task
    entityId := "Phase " ++ toString phase
    severity := .high }

def validatePhaseSlotSaturation (data : DataSet) : List ValidationError :=
  (phaseDemandMap data).flatMap (fun kv =>
    let supply := lookupOr0 (phaseSupplyMap data) kv.1
    if supply < kv.2 then [mkSaturationFinding kv.1 kv.2 supply] else [])

/-! ## Rule 9: `validateSkillCoverageMatrix` -/

def mkMissingSkillFinding (t : Task) (skill : String) : ValidationError :=
  { id := "missing-skill-" ++ t.TaskID ++ "-" ++ skill
    type := .error
    message := "No worker has required skill: " ++ skill
    field := some ("RequiredSkills")
    entityType := .task
    entityId := t.TaskID
    severity := .high }

def validateSkillCoverageMatrix (data : DataSet) : List ValidationError :=
  let availableSkills := data.workers.flatMap Worker.Skills
  data.tasks.flatMap (fun t =>
    t.RequiredSkills.filterMap (fun skill =>
      if availableSkills.contains skill then none else some (mkMissingSkillFinding t skill)))

/-! ## Rule 10: `validateMaxConcurrencyFeasibility` -/

/-- Workers whose `Skills` contain every skill in the task's `RequiredSkills`. -/
def qualifiedWorkers (data : DataSet) (t : Task) : List Worker :=
  data.workers.filter (fun w => t.RequiredSkills.all (fun skill => w.Skills.contains skill))

def mkConcurrencyFinding (t : Task) (qualifiedCount : Nat) : ValidationError :=
  { id := "concurrency-infeasible-" ++ t.TaskID
    type := .warning
    message := "MaxConcurrent (" ++ toString t.MaxConcurrent
      ++ ") exceeds qualified workers (" ++ toString qualifiedCount ++ ")"
    field := some ("MaxConcurrent")
    entityType := .task
    entityId := t.TaskID
    severity := .medium }

def validateMaxConcurrencyFeasibility (data : DataSet) : List ValidationError :=
  data.tasks.filterMap (fun t =>
    if ((qualifiedWorkers data t).length : Int) < t.MaxConcurrent
    then some (mkConcurrencyFinding t (qualifiedWorkers data t).length) else none)

/-! ## `validateDataSet` -/

/-- The concatenation, in source order, of all ten rules' findings (the
`errors` accumulator just before partitioning). -/
def allFindings (data : DataSet) : List ValidationError :=
  validateMissingRequiredColumns data
  ++ validateDuplicateIDs data
  ++ validateMalformedLists data
  ++ validateOutOfRangeValues data
  ++ validateBrokenJSON data
  ++ validateUnknownReferences data
  ++ validateOverloadedWorkers data
  ++ validatePhaseSlotSaturation data
  ++ validateSkillCoverageMatrix data
  ++ validateMaxConcurrencyFeasibility data

def validateDataSet (data : DataSet) : ValidationResult :=
  let actualErrors := (allFindings data).filter (fun e => e.type == FindingKind.error)
  let warnings := (allFindings data).filter (fun e => e.type == FindingKind.warning)
  { isValid := actualErrors.length == 0
    errors := actualErrors
    warnings := warnings }


/-! ## General helper lemmas -/

theorem filterMap_if_eq {α β : Type} (p : α → Bool) (f : α → β) (l : List α) :
    l.filterMap (fun x => if p x then some (f x) else none) = (l.filter p).map f := by
  induction l with
  | nil => rfl
  | cons x xs ih =>
      by_cases h : p x <;> simp [List.filterMap_cons, List.filter_cons, h, ih]

theorem flatMap_if_singleton {α β : Type} (p : α → Bool) (f : α → β) (l : List α) :
    (l.flatMap (fun x => if p x then [f x] else [])) = (l.filter p).map f := by
  induction l with
  | nil => rfl
  | cons x xs ih =>
      by_cases h : p x <;> simp [List.flatMap_cons, List.filter_cons, h, ih]

theorem flatMap_const_nil {α β : Type} (l : List α) :
    (l.flatMap (fun _ => ([] : List β))) = [] := by
  induction l with
  | nil => rfl
  | cons x xs ih => simp [List.flatMap_cons, ih]

/-! ## C1 -/

def c1BrokenClient : Client :=
  { ClientID := "C1", ClientName := "Acme", PriorityLevel := 3, RequestedTaskIDs := [],
    GroupTag := "", AttributesJSON := JSValue.str "this is not a mapping" }

def c1FailingData : DataSet := { clients := [c1BrokenClient], workers := [], tasks := [] }

/-- C1, divergence evaluated: the broken-JSON rule can never emit a finding —
`validateBrokenJSON` returns the empty list on every dataset, because the
`catch` that would push the `broken-json-` finding guards a statement that
cannot throw.  In particular the failing input (a client whose
`AttributesJSON` is present but is not a well-formed mapping) produces a
report with no finding on the `AttributesJSON` field at all, while the claim
requires a low-severity error finding on that field. -/
theorem c1_brokenJSON_rule_never_fires :
    (∀ d : DataSet, validateBrokenJSON d = [])
    ∧ c1BrokenClient.AttributesJSON.isWellFormedMapping = false
    ∧ c1BrokenClient.AttributesJSON ≠ JSValue.undef
    ∧ ((validateDataSet c1FailingData).errors.countP
        (fun e => e.field == some ("AttributesJSON"))) = 0
    ∧ ((validateDataSet c1FailingData).warnings.countP
        (fun e => e.field == some ("AttributesJSON"))) = 0 := by
  refine ⟨fun d => ?_, by decide, by decide, by decide, by decide⟩
  exact flatMap_const_nil d.clients

/-! ## C2 -/

/-- C2: for every dataset, the returned `ValidationResult` has
`isValid = true` if and only if its `errors` sequence is empty; the
`warnings` list plays no part in the verdict. -/
theorem c2_isValid_iff_no_errors (d : DataSet) :
    (validateDataSet d).isValid = true ↔ (validateDataSet d).errors = [] := by
  simp [validateDataSet, List.length_eq_zero]

/-! ## C3 -/

/-- C3: validation is deterministic — calling `validateDataSet` twice on the
same dataset value yields identical results: the same `isValid` flag and the
same `errors` and `warnings` lists (same findings, messages, identifiers and
order).  The embedded engine is a pure function of its dataset argument (the
source reads no ambient state and uses no randomness), so equal inputs give
equal reports. -/
theorem c3_deterministic (d₁ d₂ : DataSet) (h : d₁ = d₂) :
    validateDataSet d₁ = validateDataSet d₂
    ∧ (validateDataSet d₁).isValid = (validateDataSet d₂).isValid
    ∧ (validateDataSet d₁).errors = (validateDataSet d₂).errors
    ∧ (validateDataSet d₁).warnings = (validateDataSet d₂).warnings := by
  subst h
  exact ⟨rfl, rfl, rfl, rfl⟩

def c3Data : DataSet :=
  { clients := [c1BrokenClient]
    workers := []
    tasks := [{ TaskID := "T1", TaskName := "T", Category := "", Duration := 2,
                RequiredSkills := ["welding"], PreferredPhases := [1], MaxConcurrent := 1 }] }

theorem c3_witness :
    validateDataSet c3Data = validateDataSet c3Data
    ∧ (validateDataSet c3Data).isValid = (validateDataSet c3Data).isValid
    ∧ (validateDataSet c3Data).errors = (validateDataSet c3Data).errors
    ∧ (validateDataSet c3Data).warnings = (validateDataSet c3Data).warnings :=
  c3_deterministic c3Data c3Data rfl

/-! ## C9 -/

/-- One step of the engine with the dataset threaded as explicit state: a
rule consumes the snapshot and passes it on unchanged (the source rules only
read `data` and push findings onto a local accumulator). -/
def runRule (rule : DataSet → List ValidationError) (d : DataSet) :
    List ValidationError × DataSet :=
  (rule d, d)

/-- `validateDataSet` with the dataset state made explicit: each rule runs on
the state left by the previous rule, and the final state is returned next to
the report. -/
def validateDataSetRun (d : DataSet) : ValidationResult × DataSet :=
  let s1 := runRule validateMissingRequiredColumns d
  let s2 := runRule validateDuplicateIDs s1.2
  let s3 := runRule validateMalformedLists s2.2
  let s4 := runRule validateOutOfRangeValues s3.2
  let s5 := runRule validateBrokenJSON s4.2
  let s6 := runRule validateUnknownReferences s5.2
  let s7 := runRule validateOverloadedWorkers s6.2
  let s8 := runRule validatePhaseSlotSaturation s7.2
  let s9 := runRule validateSkillCoverageMatrix s8.2
  let s10 := runRule validateMaxConcurrencyFeasibility s9.2
  let findings := s1.1 ++ s2.1 ++ s3.1 ++ s4.1 ++ s5.1
    ++ s6.1 ++ s7.1 ++ s8.1 ++ s9.1 ++ s10.1
  let actualErrors := findings.filter (fun e => e.type == FindingKind.error)
  let warnings := findings.filter (fun e => e.type == FindingKind.warning)
  ({ isValid := actualErrors.length == 0
     errors := actualErrors
     warnings := warnings }, s10.2)

/-- C9: validation is a pure read-only pass over the dataset — running the
whole battery with the dataset threaded as explicit state returns the input
dataset unchanged (every collection and every field of every entity), and
computes the same report as `validateDataSet`. -/
theorem c9_read_only (d : DataSet) :
    (validateDataSetRun d).2 = d ∧ (validateDataSetRun d).1 = validateDataSet d :=
  ⟨rfl, rfl⟩

/-! ## C6 -/

theorem contains_eq_decide_mem (sk : List String) (a : String) :
    sk.contains a = decide (a ∈ sk) := by
  by_cases h : a ∈ sk <;> simp [h, List.elem_iff]

theorem all_contains_eq (rs sk : List String) :
    (rs.all (fun s => sk.contains s)) = decide (∀ s ∈ rs, s ∈ sk) := by
  induction rs with
  | nil => simp
  | cons a l ih =>
      rw [List.all_cons, ih, contains_eq_decide_mem]
      simp [List.forall_mem_cons]

theorem filterMap_dif_eq {α β : Type} (p : α → Prop) [DecidablePred p] (f : α → β) (l : List α) :
    l.filterMap (fun x => if p x then some (f x) else none)
      = (l.filter (fun x => decide (p x))).map f := by
  induction l with
  | nil => rfl
  | cons x xs ih =>
      by_cases h : p x <;> simp [List.filterMap_cons, List.filter_cons, h, ih]

theorem filterMap_difnot_eq {α β : Type} (p : α → Prop) [DecidablePred p] (f : α → β) (l : List α) :
    l.filterMap (fun x => if p x then none else some (f x))
      = (l.filter (fun x => !decide (p x))).map f := by
  induction l with
  | nil => rfl
  | cons x xs ih =>
      by_cases h : p x <;> simp [List.filterMap_cons, List.filter_cons, h, ih]

/-- Number of qualified workers as the claim words it: workers whose `Skills`
contain every skill in the task's `RequiredSkills`. -/
def claimQualifiedCount (d : DataSet) (t : Task) : Nat :=
  d.workers.countP (fun w => decide (∀ s ∈ t.RequiredSkills, s ∈ w.Skills))

theorem qualifiedWorkers_length (d : DataSet) (t : Task) :
    (qualifiedWorkers d t).length = claimQualifiedCount d t := by
  rw [claimQualifiedCount, List.countP_eq_length_filter]
  apply congrArg List.length
  rw [qualifiedWorkers]
  apply List.filter_congr
  intro w _
  exact all_contains_eq t.RequiredSkills w.Skills

/-- C6: the concurrency-feasibility rule emits, per task, exactly one finding
if and only if the task's `MaxConcurrent` strictly exceeds the number of
workers whose `Skills` contain every skill in the task's `RequiredSkills`;
each emitted finding is a warning whose message cites both `MaxConcurrent`
and that worker count. -/
theorem c6_concurrency_feasibility (d : DataSet) :
    validateMaxConcurrencyFeasibility d
      = (d.tasks.filter
          (fun t => decide ((claimQualifiedCount d t : Int) < t.MaxConcurrent))).map
          (fun t => mkConcurrencyFinding t (claimQualifiedCount d t))
    ∧ ∀ t : Task,
        (mkConcurrencyFinding t (claimQualifiedCount d t)).type = FindingKind.warning
        ∧ (mkConcurrencyFinding t (claimQualifiedCount d t)).message
            = "MaxConcurrent (" ++ toString t.MaxConcurrent
              ++ ") exceeds qualified workers (" ++ toString (claimQualifiedCount d t) ++ ")" := by
  refine ⟨?_, fun t => ⟨rfl, rfl⟩⟩
  rw [validateMaxConcurrencyFeasibility]
  simp only [qualifiedWorkers_length]
  exact filterMap_dif_eq _ _ _

/-! ## C7 -/

/-- C7: for every client, the unknown-reference rule emits exactly one
high-severity error finding for each entry of `RequestedTaskIDs` for which no
task in the task collection has that `TaskID`, and no finding for entries
that do resolve. -/
theorem c7_unknown_references (d : DataSet) :
    validateUnknownReferences d
      = d.clients.flatMap (fun c =>
          (c.RequestedTaskIDs.filter
            (fun taskID => decide (¬ ∃ t ∈ d.tasks, t.TaskID = taskID))).map
            (mkUnknownRefFinding c))
    ∧ ∀ (c : Client) (taskID : String),
        (mkUnknownRefFinding c taskID).type = FindingKind.error
        ∧ (mkUnknownRefFinding c taskID).severity = Severity.high := by
  refine ⟨?_, fun c taskID => ⟨rfl, rfl⟩⟩
  rw [validateUnknownReferences]
  refine List.flatMap_congr ?_
  intro c _
  rw [filterMap_difnot_eq]
  congr 1
  refine List.filter_congr ?_
  intro taskID _
  rw [contains_eq_decide_mem, ← decide_not]
  refine decide_eq_decide.mpr ?_
  simp [List.mem_map]

/-! ## C10 -/

theorem mem_clientMissingFrom (f : String) (hf : f ∈ requiredClientFields) :
    ∀ (cs : List Client) (i j : Nat) (h : j < cs.length),
      clientFieldMissing (cs.get ⟨j, h⟩) f = true →
      mkMissingClientFinding f (i + j) (cs.get ⟨j, h⟩) ∈ clientMissingFrom i cs := by
  intro cs
  induction cs with
  | nil => intro i j h; simp at h
  | cons c rest ih =>
      intro i j h hmiss
      cases j with
      | zero =>
          rw [clientMissingFrom]
          apply List.mem_append_left
          apply List.mem_filterMap.mpr
          refine ⟨f, hf, ?_⟩
          simp only [List.get] at hmiss ⊢
          rw [hmiss]
          simp
      | succ j' =>
          rw [clientMissingFrom]
          apply List.mem_append_right
          have h' : j' < rest.length := Nat.lt_of_succ_lt_succ h
          have := ih (i + 1) j' h' (by simpa using hmiss)
          have harith : i + 1 + j' = i + (j' + 1) := by omega
          rw [harith] at this
          simpa using this

theorem mem_taskMissingFrom (f : String) (hf : f ∈ requiredTaskFields) :
    ∀ (ts : List Task) (i j : Nat) (h : j < ts.length),
      taskFieldMissing (ts.get ⟨j, h⟩) f = true →
      mkMissingTaskFinding f (i + j) (ts.get ⟨j, h⟩) ∈ taskMissingFrom i ts := by
  intro ts
  induction ts with
  | nil => intro i j h; simp at h
  | cons t rest ih =>
      intro i j h hmiss
      cases j with
      | zero =>
          rw [taskMissingFrom]
          apply List.mem_append_left
          apply List.mem_filterMap.mpr
          refine ⟨f, hf, ?_⟩
          simp only [List.get] at hmiss ⊢
          rw [hmiss]
          simp
      | succ j' =>
          rw [taskMissingFrom]
          apply List.mem_append_right
          have h' : j' < rest.length := Nat.lt_of_succ_lt_succ h
          have := ih (i + 1) j' h' (by simpa using hmiss)
          have harith : i + 1 + j' = i + (j' + 1) := by omega
          rw [harith] at this
          simpa using this

theorem mem_errors_of_allFindings (d : DataSet) (e : ValidationError)
    (he : e ∈ allFindings d) (ht : e.type = FindingKind.error) :
    e ∈ (validateDataSet d).errors := by
  show e ∈ (allFindings d).filter (fun e => e.type == FindingKind.error)
  rw [List.mem_filter]
  exact ⟨he, by simp [ht]⟩

/-- C10: a client whose `PriorityLevel` is 0 trips both the missing-field
rule (0 is falsy) and the out-of-range rule, receiving two distinct error
findings; likewise a task whose `Duration` is 0 receives both a missing-field
error and a range error. -/
theorem c10_zero_value_double_findings (d : DataSet) :
    (∀ (j : Nat) (h : j < d.clients.length),
       (d.clients.get ⟨j, h⟩).PriorityLevel = 0 →
         mkMissingClientFinding ("PriorityLevel") j (d.clients.get ⟨j, h⟩)
             ∈ (validateDataSet d).errors
         ∧ mkPriorityRangeFinding (d.clients.get ⟨j, h⟩) ∈ (validateDataSet d).errors
         ∧ mkMissingClientFinding ("PriorityLevel") j (d.clients.get ⟨j, h⟩)
             ≠ mkPriorityRangeFinding (d.clients.get ⟨j, h⟩))
    ∧ (∀ (j : Nat) (h : j < d.tasks.length),
       (d.tasks.get ⟨j, h⟩).Duration = 0 →
         mkMissingTaskFinding ("Duration") j (d.tasks.get ⟨j, h⟩)
             ∈ (validateDataSet d).errors
         ∧ mkDurationRangeFinding (d.tasks.get ⟨j, h⟩) ∈ (validateDataSet d).errors
         ∧ mkMissingTaskFinding ("Duration") j (d.tasks.get ⟨j, h⟩)
             ≠ mkDurationRangeFinding (d.tasks.get ⟨j, h⟩)) := by
  constructor
  · intro j h hP
    refine ⟨?_, ?_, ?_⟩
    · apply mem_errors_of_allFindings _ _ _ rfl
      have hm : clientFieldMissing (d.clients.get ⟨j, h⟩) ("PriorityLevel") = true := by
        simp [clientFieldMissing]
        exact hP
      have := mem_clientMissingFrom ("PriorityLevel") (by simp [requiredClientFields])
        d.clients 0 j h hm
      rw [Nat.zero_add] at this
      have hmem : mkMissingClientFinding ("PriorityLevel") j (d.clients.get ⟨j, h⟩)
          ∈ validateMissingRequiredColumns d := by
        rw [validateMissingRequiredColumns]
        exact List.mem_append_left _ (List.mem_append_left _ this)
      simp only [allFindings, List.mem_append]
      tauto
    · apply mem_errors_of_allFindings _ _ _ rfl
      have hmem : mkPriorityRangeFinding (d.clients.get ⟨j, h⟩) ∈ validateOutOfRangeValues d := by
        rw [validateOutOfRangeValues]
        apply List.mem_append_left
        apply List.mem_filterMap.mpr
        refine ⟨d.clients.get ⟨j, h⟩, List.get_mem _ _ _, ?_⟩
        rw [if_pos]
        exact Or.inl (by omega)
      simp only [allFindings, List.mem_append]
      tauto
    · intro heq
      have hsev := congrArg ValidationError.severity heq
      simp [mkMissingClientFinding, mkPriorityRangeFinding] at hsev
  · intro j h hD
    refine ⟨?_, ?_, ?_⟩
    · apply mem_errors_of_allFindings _ _ _ rfl
      have hm : taskFieldMissing (d.tasks.get ⟨j, h⟩) ("Duration") = true := by
        simp [taskFieldMissing]
        exact hD
      have := mem_taskMissingFrom ("Duration") (by simp [requiredTaskFields])
        d.tasks 0 j h hm
      rw [Nat.zero_add] at this
      have hmem : mkMissingTaskFinding ("Duration") j (d.tasks.get ⟨j, h⟩)
          ∈ validateMissingRequiredColumns d := by
        rw [validateMissingRequiredColumns]
        exact List.mem_append_right _ this
      simp only [allFindings, List.mem_append]
      tauto
    · apply mem_errors_of_allFindings _ _ _ rfl
      have hmem : mkDurationRangeFinding (d.tasks.get ⟨j, h⟩) ∈ validateOutOfRangeValues d := by
        rw [validateOutOfRangeValues]
        apply List.mem_append_right
        apply List.mem_filterMap.mpr
        refine ⟨d.tasks.get ⟨j, h⟩, List.get_mem _ _ _, ?_⟩
        rw [if_pos]
        omega
      simp only [allFindings, List.mem_append]
      tauto
    · intro heq
      have hsev := congrArg ValidationError.severity heq
      simp [mkMissingTaskFinding, mkDurationRangeFinding] at hsev

def c10Client : Client :=
  { ClientID := "C1", ClientName := "Acme", PriorityLevel := 0, RequestedTaskIDs := [],
    GroupTag := "", AttributesJSON := JSValue.obj [] }

def c10Task : Task :=
  { TaskID := "T1", TaskName := "T", Category := "", Duration := 0,
    RequiredSkills := ["s"], PreferredPhases := [], MaxConcurrent := 1 }

def c10Data : DataSet := { clients := [c10Client], workers := [], tasks := [c10Task] }

theorem c10_witness :
    (mkMissingClientFinding ("PriorityLevel") 0 c10Client ∈ (validateDataSet c10Data).errors
     ∧ mkPriorityRangeFinding c10Client ∈ (validateDataSet c10Data).errors
     ∧ mkMissingClientFinding ("PriorityLevel") 0 c10Client ≠ mkPriorityRangeFinding c10Client)
    ∧ (mkMissingTaskFinding ("Duration") 0 c10Task ∈ (validateDataSet c10Data).errors
     ∧ mkDurationRangeFinding c10Task ∈ (validateDataSet c10Data).errors
     ∧ mkMissingTaskFinding ("Duration") 0 c10Task ≠ mkDurationRangeFinding c10Task) :=
  ⟨(c10_zero_value_double_findings c10Data).1 0 (by decide) (by decide),
   (c10_zero_value_double_findings c10Data).2 0 (by decide) (by decide)⟩

/-! ## C4 -/

theorem countP_eq_count_str (v : String) (l : List String) :
    l.countP (fun w => decide (w = v)) = l.count v := by
  induction l with
  | nil => rfl
  | cons a t ih => by_cases h : a = v <;> simp [List.countP_cons, List.count_cons, h, ih]

theorem dupScan_count (v : String) (hv : v ≠ "") :
    ∀ (ids seen : List String),
      (dupScan seen ids).count v = if v ∈ seen then ids.count v else ids.count v - 1 := by
  intro ids
  induction ids with
  | nil => intro seen; simp [dupScan]
  | cons w rest ih =>
      intro seen
      by_cases hw : w = ""
      · have hwv : (w == v) = false := by
          rw [hw]
          simp only [beq_eq_false_iff_ne, ne_eq]
          exact fun h => hv h.symm
        rw [dupScan, if_pos (by simp [hw]), ih seen, List.count_cons]
        simp [hwv]
      · have hwne : ¬ ((w == "") = true) := by simp [hw]
        by_cases hs : (seen.contains w) = true
        · rw [dupScan, if_neg hwne, if_pos hs]
          by_cases hwv : w = v
          · have hvseen : v ∈ seen := by
              rw [contains_eq_decide_mem] at hs
              exact hwv ▸ of_decide_eq_true hs
            rw [List.count_cons, ih seen, if_pos hvseen, if_pos hvseen, List.count_cons]
          · have hbv : (w == v) = false := by simp [hwv]
            rw [List.count_cons, ih seen, List.count_cons]
            by_cases hvs : v ∈ seen
            · rw [if_pos hvs, if_pos hvs]
            · rw [if_neg hvs, if_neg hvs]
              simp [hbv]
        · rw [dupScan, if_neg hwne, if_neg hs]
          by_cases hwv : w = v
          · have hvseen : v ∈ w :: seen := by
              rw [← hwv]
              exact List.mem_cons_self w seen
            have hvnotseen : v ∉ seen := by
              intro hmem
              apply hs
              rw [contains_eq_decide_mem]
              have hws : w ∈ seen := by rw [hwv]; exact hmem
              exact decide_eq_true hws
            have hbv : (w == v) = true := by simp [hwv]
            rw [ih (w :: seen), if_pos hvseen, if_neg hvnotseen, List.count_cons]
            simp [hbv]
          · have hbv : (w == v) = false := by simp [hwv]
            have hmemiff : (v ∈ w :: seen) ↔ (v ∈ seen) := by
              constructor
              · intro h
                rcases List.mem_cons.mp h with h' | h'
                · exact absurd h'.symm hwv
                · exact h'
              · exact fun h => List.mem_cons_of_mem w h
            rw [ih (w :: seen), List.count_cons]
            by_cases hvs : v ∈ seen
            · rw [if_pos (hmemiff.mpr hvs), if_pos hvs]
              simp [hbv]
            · rw [if_neg (fun h => hvs (hmemiff.mp h)), if_neg hvs]
              simp [hbv]

/-- C4 (amended): for each collection, the number of duplicate-ID findings
carrying a given non-empty ID value equals the number of occurrences of that
value minus one — one high-severity error finding for each second-and-later
occurrence, none for the first occurrence; every duplicate-ID finding is a
high-severity error. -/
theorem c4_duplicate_ids (d : DataSet) (v : String) (hv : v ≠ "") :
    ((validateDuplicateIDs d).countP
        (fun e => decide (e.entityType = EntityType.client ∧ e.entityId = v)))
      = (d.clients.map Client.ClientID).count v - 1
    ∧ ((validateDuplicateIDs d).countP
        (fun e => decide (e.entityType = EntityType.worker ∧ e.entityId = v)))
      = (d.workers.map Worker.WorkerID).count v - 1
    ∧ ((validateDuplicateIDs d).countP
        (fun e => decide (e.entityType = EntityType.task ∧ e.entityId = v)))
      = (d.tasks.map Task.TaskID).count v - 1
    ∧ ∀ e ∈ validateDuplicateIDs d,
        e.type = FindingKind.error ∧ e.severity = Severity.high := by
  refine ⟨?_, ?_, ?_, ?_⟩
  · rw [validateDuplicateIDs, List.countP_append, List.countP_append]
    have h2 : ((dupScan [] (d.workers.map Worker.WorkerID)).map mkDupWorkerFinding).countP
        (fun e => decide (e.entityType = EntityType.client ∧ e.entityId = v)) = 0 := by
      refine List.countP_eq_zero.mpr ?_
      intro e he
      obtain ⟨w, _, rfl⟩ := List.mem_map.mp he
      simp [mkDupWorkerFinding]
    have h3 : ((dupScan [] (d.tasks.map Task.TaskID)).map mkDupTaskFinding).countP
        (fun e => decide (e.entityType = EntityType.client ∧ e.entityId = v)) = 0 := by
      refine List.countP_eq_zero.mpr ?_
      intro e he
      obtain ⟨w, _, rfl⟩ := List.mem_map.mp he
      simp [mkDupTaskFinding]
    rw [h2, h3, List.countP_map]
    have hcomp : ((fun e => decide (e.entityType = EntityType.client ∧ e.entityId = v))
        ∘ mkDupClientFinding) = fun w => decide (w = v) := by
      funext w
      simp [mkDupClientFinding, Function.comp]
    rw [hcomp, countP_eq_count_str, dupScan_count v hv]
    simp
  · rw [validateDuplicateIDs, List.countP_append, List.countP_append]
    have h1 : ((dupScan [] (d.clients.map Client.ClientID)).map mkDupClientFinding).countP
        (fun e => decide (e.entityType = EntityType.worker ∧ e.entityId = v)) = 0 := by
      refine List.countP_eq_zero.mpr ?_
      intro e he
      obtain ⟨w, _, rfl⟩ := List.mem_map.mp he
      simp [mkDupClientFinding]
    have h3 : ((dupScan [] (d.tasks.map Task.TaskID)).map mkDupTaskFinding).countP
        (fun e => decide (e.entityType = EntityType.worker ∧ e.entityId = v)) = 0 := by
      refine List.countP_eq_zero.mpr ?_
      intro e he
      obtain ⟨w, _, rfl⟩ := List.mem_map.mp he
      simp [mkDupTaskFinding]
    rw [h1, h3, List.countP_map]
    have hcomp : ((fun e => decide (e.entityType = EntityType.worker ∧ e.entityId = v))
        ∘ mkDupWorkerFinding) = fun w => decide (w = v) := by
      funext w
      simp [mkDupWorkerFinding, Function.comp]
    rw [hcomp, countP_eq_count_str, dupScan_count v hv]
    simp
  · rw [validateDuplicateIDs, List.countP_append, List.countP_append]
    have h1 : ((dupScan [] (d.clients.map Client.ClientID)).map mkDupClientFinding).countP
        (fun e => decide (e.entityType = EntityType.task ∧ e.entityId = v)) = 0 := by
      refine List.countP_eq_zero.mpr ?_
      intro e he
      obtain ⟨w, _, rfl⟩ := List.mem_map.mp he
      simp [mkDupClientFinding]
    have h2 : ((dupScan [] (d.workers.map Worker.WorkerID)).map mkDupWorkerFinding).countP
        (fun e => decide (e.entityType = EntityType.task ∧ e.entityId = v)) = 0 := by
      refine List.countP_eq_zero.mpr ?_
      intro e he
      obtain ⟨w, _, rfl⟩ := List.mem_map.mp he
      simp [mkDupWorkerFinding]
    rw [h1, h2, List.countP_map]
    have hcomp : ((fun e => decide (e.entityType = EntityType.task ∧ e.entityId = v))
        ∘ mkDupTaskFinding) = fun w => decide (w = v) := by
      funext w
      simp [mkDupTaskFinding, Function.comp]
    rw [hcomp, countP_eq_count_str, dupScan_count v hv]
    simp
  · intro e he
    rw [validateDuplicateIDs] at he
    rcases List.mem_append.mp he with h | h
    · rcases List.mem_append.mp h with h' | h'
      · obtain ⟨w, _, rfl⟩ := List.mem_map.mp h'
        exact ⟨rfl, rfl⟩
      · obtain ⟨w, _, rfl⟩ := List.mem_map.mp h'
        exact ⟨rfl, rfl⟩
    · obtain ⟨w, _, rfl⟩ := List.mem_map.mp h
      exact ⟨rfl, rfl⟩

def c4Client (idv : String) : Client :=
  { ClientID := idv, ClientName := "A", PriorityLevel := 3, RequestedTaskIDs := [],
    GroupTag := "", AttributesJSON := JSValue.obj [] }

def c4Data : DataSet :=
  { clients := [c4Client "C1", c4Client "C1"], workers := [], tasks := [] }

theorem c4_witness :
    ((validateDuplicateIDs c4Data).countP
        (fun e => decide (e.entityType = EntityType.client ∧ e.entityId = "C1")))
      = (c4Data.clients.map Client.ClientID).count "C1" - 1
    ∧ ((validateDuplicateIDs c4Data).countP
        (fun e => decide (e.entityType = EntityType.worker ∧ e.entityId = "C1")))
      = (c4Data.workers.map Worker.WorkerID).count "C1" - 1
    ∧ ((validateDuplicateIDs c4Data).countP
        (fun e => decide (e.entityType = EntityType.task ∧ e.entityId = "C1")))
      = (c4Data.tasks.map Task.TaskID).count "C1" - 1
    ∧ ∀ e ∈ validateDuplicateIDs c4Data,
        e.type = FindingKind.error ∧ e.severity = Severity.high :=
  c4_duplicate_ids c4Data "C1" (by decide)

def c4EmptyData : DataSet :=
  { clients := [c4Client "", c4Client ""], workers := [], tasks := [] }

/-- C4, counterexample to the claim as stated: in a dataset with two clients
whose ClientID is the empty string, the value occurs twice but the duplicate
rule emits no finding at all (a falsy ID is skipped before the duplicate
check), so the second occurrence is not reported. -/
theorem c4_counterexample :
    ¬ (((validateDuplicateIDs c4EmptyData).countP
          (fun e => decide (e.entityType = EntityType.client ∧ e.entityId = "")))
        = (c4EmptyData.clients.map Client.ClientID).count "" - 1) := by
  decide

/-! ## C5: association-map theory for the phase maps -/

/-- Fold `bumpKey` over a list of key/weight pairs. -/
def insertAll (m : List (Int × Int)) : List (Int × Int) → List (Int × Int)
  | [] => m
  | kv :: rest => insertAll (bumpKey m kv.1 kv.2) rest

/-- Total weight carried by key `q` in a pair list. -/
def keySum : List (Int × Int) → Int → Int
  | [], _ => 0
  | kv :: rest, q => (if kv.1 = q then kv.2 else 0) + keySum rest q

theorem lookupOr0_nil (q : Int) : lookupOr0 [] q = 0 := rfl

theorem lookupOr0_cons (a : Int × Int) (m : List (Int × Int)) (q : Int) :
    lookupOr0 (a :: m) q = if a.1 = q then a.2 else lookupOr0 m q := by
  by_cases h : a.1 = q
  · simp [lookupOr0, List.find?, h]
  · simp only [lookupOr0, List.find?]
    rw [if_neg h]
    have : (a.1 == q) = false := by simp [h]
    rw [this]

theorem bumpKey_lookup (m : List (Int × Int)) (k v q : Int) :
    lookupOr0 (bumpKey m k v) q = lookupOr0 m q + if k = q then v else 0 := by
  induction m with
  | nil =>
      rw [bumpKey, lookupOr0_cons, lookupOr0_nil]
      by_cases h : k = q
      · simp [h]
      · simp [h]
  | cons a m ih =>
      rw [bumpKey]
      by_cases hak : a.1 = k
      · rw [if_pos hak, lookupOr0_cons, lookupOr0_cons]
        by_cases hq : a.1 = q
        · rw [if_pos hq, if_pos hq, if_pos (hak ▸ hq)]
        · rw [if_neg hq, if_neg hq, if_neg (fun h => hq (hak.symm ▸ h))]
          simp
      · rw [if_neg hak, lookupOr0_cons, lookupOr0_cons, ih]
        by_cases hq : a.1 = q
        · rw [if_pos hq, if_pos hq]
          rw [if_neg (fun h : k = q => hak (hq ▸ h.symm ▸ rfl))]
          simp
        · rw [if_neg hq, if_neg hq]

theorem bumpKey_keys (m : List (Int × Int)) (k v : Int) :
    (bumpKey m k v).map Prod.fst
      = if k ∈ m.map Prod.fst then m.map Prod.fst else m.map Prod.fst ++ [k] := by
  induction m with
  | nil => simp [bumpKey]
  | cons a m ih =>
      rw [bumpKey]
      by_cases hak : a.1 = k
      · rw [if_pos hak]
        have : k ∈ (a :: m).map Prod.fst := by
          simp only [List.map_cons, List.mem_cons]
          exact Or.inl hak.symm
        rw [if_pos this]
        simp
      · rw [if_neg hak]
        by_cases hk : k ∈ m.map Prod.fst
        · have : k ∈ (a :: m).map Prod.fst := by
            simp only [List.map_cons, List.mem_cons]
            exact Or.inr hk
          rw [if_pos this]
          simp only [List.map_cons, ih, if_pos hk]
        · have : k ∉ (a :: m).map Prod.fst := by
            simp only [List.map_cons, List.mem_cons]
            rintro (h | h)
            · exact hak h.symm
            · exact hk h
          rw [if_neg this]
          simp only [List.map_cons, ih, if_neg hk]
          rfl

theorem bumpKey_keys_nodup (m : List (Int × Int)) (k v : Int)
    (h : (m.map Prod.fst).Nodup) : ((bumpKey m k v).map Prod.fst).Nodup := by
  rw [bumpKey_keys]
  by_cases hk : k ∈ m.map Prod.fst
  · rw [if_pos hk]; exact h
  · rw [if_neg hk]
    refine List.Nodup.append h (List.nodup_singleton k) ?_
    intro a ha hb
    rw [List.mem_singleton] at hb
    exact hk (hb ▸ ha)

theorem bumpKey_keys_mem (m : List (Int × Int)) (k v q : Int) :
    q ∈ (bumpKey m k v).map Prod.fst ↔ q ∈ m.map Prod.fst ∨ q = k := by
  rw [bumpKey_keys]
  by_cases hk : k ∈ m.map Prod.fst
  · rw [if_pos hk]
    constructor
    · exact Or.inl
    · rintro (h | h)
      · exact h
      · exact h ▸ hk
  · rw [if_neg hk]
    simp [List.mem_append]

theorem insertAll_lookup (q : Int) :
    ∀ (ps : List (Int × Int)) (m : List (Int × Int)),
      lookupOr0 (insertAll m ps) q = lookupOr0 m q + keySum ps q := by
  intro ps
  induction ps with
  | nil => intro m; simp [insertAll, keySum]
  | cons kv rest ih =>
      intro m
      rw [insertAll, ih, bumpKey_lookup, keySum]
      ring

theorem insertAll_keys_mem (q : Int) :
    ∀ (ps : List (Int × Int)) (m : List (Int × Int)),
      q ∈ (insertAll m ps).map Prod.fst ↔ q ∈ m.map Prod.fst ∨ q ∈ ps.map Prod.fst := by
  intro ps
  induction ps with
  | nil => intro m; simp [insertAll]
  | cons kv rest ih =>
      intro m
      rw [insertAll, ih, bumpKey_keys_mem]
      simp only [List.map_cons, List.mem_cons]
      tauto

theorem insertAll_keys_nodup :
    ∀ (ps : List (Int × Int)) (m : List (Int × Int)),
      (m.map Prod.fst).Nodup → ((insertAll m ps).map Prod.fst).Nodup := by
  intro ps
  induction ps with
  | nil => intro m h; exact h
  | cons kv rest ih =>
      intro m h
      exact ih _ (bumpKey_keys_nodup m kv.1 kv.2 h)

theorem lookup_of_mem_nodup :
    ∀ (m : List (Int × Int)), (m.map Prod.fst).Nodup →
      ∀ kv ∈ m, lookupOr0 m kv.1 = kv.2 := by
  intro m
  induction m with
  | nil => intro _ kv h; simp at h
  | cons a m ih =>
      intro hnd kv hkv
      simp only [List.map_cons, List.nodup_cons] at hnd
      rcases List.mem_cons.mp hkv with h | h
      · rw [h, lookupOr0_cons, if_pos rfl]
      · have hne : a.1 ≠ kv.1 := by
          intro heq
          exact hnd.1 (heq ▸ List.mem_map.mpr ⟨kv, h, rfl⟩)
        rw [lookupOr0_cons, if_neg hne]
        exact ih hnd.2 kv h

/-! ## C5: the phase maps compute occurrence-weighted demand and supply -/

theorem insertAll_append :
    ∀ (ps qs : List (Int × Int)) (m : List (Int × Int)),
      insertAll m (ps ++ qs) = insertAll (insertAll m ps) qs := by
  intro ps
  induction ps with
  | nil => intro qs m; rfl
  | cons kv rest ih => intro qs m; rw [List.cons_append, insertAll, insertAll]; exact ih _ _

theorem foldl_bumpKey_eq_insertAll (w : Int) :
    ∀ (phases : List Int) (m : List (Int × Int)),
      phases.foldl (fun m p => bumpKey m p w) m = insertAll m (phases.map (fun p => (p, w))) := by
  intro phases
  induction phases with
  | nil => intro m; rfl
  | cons p rest ih => intro m; rw [List.foldl_cons, List.map_cons, insertAll]; exact ih _

def demandPairs (d : DataSet) : List (Int × Int) :=
  d.tasks.flatMap (fun t => t.PreferredPhases.map (fun p => (p, t.Duration)))

def supplyPairs (d : DataSet) : List (Int × Int) :=
  d.workers.flatMap (fun w => w.AvailableSlots.map (fun p => (p, w.MaxLoadPerPhase)))

theorem tasks_fold_eq_insertAll :
    ∀ (ts : List Task) (m : List (Int × Int)),
      ts.foldl (fun m t => t.PreferredPhases.foldl (fun m p => bumpKey m p t.Duration) m) m
        = insertAll m (ts.flatMap (fun t => t.PreferredPhases.map (fun p => (p, t.Duration)))) := by
  intro ts
  induction ts with
  | nil => intro m; rfl
  | cons t rest ih =>
      intro m
      rw [List.foldl_cons, List.flatMap_cons, foldl_bumpKey_eq_insertAll, insertAll_append]
      exact ih _

theorem workers_fold_eq_insertAll :
    ∀ (ws : List Worker) (m : List (Int × Int)),
      ws.foldl (fun m w => w.AvailableSlots.foldl (fun m p => bumpKey m p w.MaxLoadPerPhase) m) m
        = insertAll m (ws.flatMap (fun w => w.AvailableSlots.map (fun p => (p, w.MaxLoadPerPhase)))) := by
  intro ws
  induction ws with
  | nil => intro m; rfl
  | cons w rest ih =>
      intro m
      rw [List.foldl_cons, List.flatMap_cons, foldl_bumpKey_eq_insertAll, insertAll_append]
      exact ih _

theorem phaseDemandMap_eq (d : DataSet) : phaseDemandMap d = insertAll [] (demandPairs d) := by
  rw [phaseDemandMap, demandPairs]
  exact tasks_fold_eq_insertAll d.tasks []

theorem phaseSupplyMap_eq (d : DataSet) : phaseSupplyMap d = insertAll [] (supplyPairs d) := by
  rw [phaseSupplyMap, supplyPairs]
  exact workers_fold_eq_insertAll d.workers []

theorem keySum_append (q : Int) :
    ∀ (ps qs : List (Int × Int)), keySum (ps ++ qs) q = keySum ps q + keySum qs q := by
  intro ps qs
  induction ps with
  | nil => simp [keySum]
  | cons kv rest ih => rw [List.cons_append, keySum, keySum, ih]; ring

theorem keySum_map_pairs (w q : Int) (phases : List Int) :
    keySum (phases.map (fun p => (p, w))) q = (phases.count q : Int) * w := by
  induction phases with
  | nil => simp [keySum]
  | cons p rest ih =>
      rw [List.map_cons, keySum, ih, List.count_cons]
      by_cases h : p = q
      · simp only [h, beq_self_eq_true, if_true, if_pos rfl]
        push_cast
        ring
      · have hb : (p == q) = false := by simp [h]
        rw [hb, if_neg h]
        simp only [Bool.false_eq_true, if_false]
        push_cast
        ring

/-- Occurrence-weighted demand on phase `p`: every occurrence of `p` in a
task's `PreferredPhases` contributes the task's full `Duration`.  This is
what the `forEach` in the source accumulates (a duplicated entry counts
twice). -/
def occDemand (d : DataSet) (p : Int) : Int :=
  (d.tasks.map (fun t => (t.PreferredPhases.count p : Int) * t.Duration)).sum

/-- Occurrence-weighted supply on phase `p`: every occurrence of `p` in a
worker's `AvailableSlots` contributes the worker's full `MaxLoadPerPhase`. -/
def occSupply (d : DataSet) (p : Int) : Int :=
  (d.workers.map (fun w => (w.AvailableSlots.count p : Int) * w.MaxLoadPerPhase)).sum

theorem keySum_task_pairs (q : Int) :
    ∀ (ts : List Task),
      keySum (ts.flatMap (fun t => t.PreferredPhases.map (fun p => (p, t.Duration)))) q
        = (ts.map (fun t => (t.PreferredPhases.count q : Int) * t.Duration)).sum := by
  intro ts
  induction ts with
  | nil => simp [keySum]
  | cons t rest ih =>
      rw [List.flatMap_cons, keySum_append, keySum_map_pairs, List.map_cons, List.sum_cons, ih]

theorem keySum_worker_pairs (q : Int) :
    ∀ (ws : List Worker),
      keySum (ws.flatMap (fun w => w.AvailableSlots.map (fun p => (p, w.MaxLoadPerPhase)))) q
        = (ws.map (fun w => (w.AvailableSlots.count q : Int) * w.MaxLoadPerPhase)).sum := by
  intro ws
  induction ws with
  | nil => simp [keySum]
  | cons w rest ih =>
      rw [List.flatMap_cons, keySum_append, keySum_map_pairs, List.map_cons, List.sum_cons, ih]

theorem lookup_phaseDemandMap (d : DataSet) (q : Int) :
    lookupOr0 (phaseDemandMap d) q = occDemand d q := by
  rw [phaseDemandMap_eq, insertAll_lookup, lookupOr0_nil, occDemand, demandPairs,
    keySum_task_pairs]
  ring

theorem lookup_phaseSupplyMap (d : DataSet) (q : Int) :
    lookupOr0 (phaseSupplyMap d) q = occSupply d q := by
  rw [phaseSupplyMap_eq, insertAll_lookup, lookupOr0_nil, occSupply, supplyPairs,
    keySum_worker_pairs]
  ring

theorem phaseDemandMap_keys_nodup (d : DataSet) :
    ((phaseDemandMap d).map Prod.fst).Nodup := by
  rw [phaseDemandMap_eq]
  exact insertAll_keys_nodup _ [] (by simp)

theorem mem_phaseDemandMap_keys (d : DataSet) (q : Int) :
    q ∈ (phaseDemandMap d).map Prod.fst ↔ ∃ t ∈ d.tasks, q ∈ t.PreferredPhases := by
  rw [phaseDemandMap_eq, insertAll_keys_mem, demandPairs]
  constructor
  · rintro (h | h)
    · simp at h
    · obtain ⟨kv, hkv, rfl⟩ := List.mem_map.mp h
      obtain ⟨t, ht, hkvmem⟩ := List.mem_flatMap.mp hkv
      obtain ⟨p, hp, rfl⟩ := List.mem_map.mp hkvmem
      exact ⟨t, ht, hp⟩
  · rintro ⟨t, ht, hq⟩
    right
    exact List.mem_map.mpr ⟨(q, t.Duration),
      List.mem_flatMap.mpr ⟨t, ht, List.mem_map.mpr ⟨q, hq, rfl⟩⟩, rfl⟩

theorem flatMap_dif_singleton {α β : Type} (p : α → Prop) [DecidablePred p] (f : α → β)
    (l : List α) :
    (l.flatMap (fun x => if p x then [f x] else []))
      = (l.filter (fun x => decide (p x))).map f := by
  induction l with
  | nil => rfl
  | cons x xs ih =>
      by_cases h : p x <;> simp [List.flatMap_cons, List.filter_cons, h, ih]

/-- Phases the saturation rule flags: keys of the demand map whose stored
demand strictly exceeds the looked-up supply, in map insertion order. -/
def saturatedPhases (d : DataSet) : List Int :=
  ((phaseDemandMap d).filter
    (fun kv => decide (lookupOr0 (phaseSupplyMap d) kv.1 < kv.2))).map Prod.fst

/-- Demand as the claim words it: each task whose `PreferredPhases` contains
`p` contributes its full `Duration` once. -/
def claimPhaseDemand (d : DataSet) (p : Int) : Int :=
  ((d.tasks.filter (fun t => t.PreferredPhases.contains p)).map Task.Duration).sum

/-- Supply as the claim words it: each worker whose `AvailableSlots` contains
`p` contributes its full `MaxLoadPerPhase` once. -/
def claimPhaseSupply (d : DataSet) (p : Int) : Int :=
  ((d.workers.filter (fun w => w.AvailableSlots.contains p)).map Worker.MaxLoadPerPhase).sum

/-- C5 (amended): the saturation rule's findings are exactly one warning per
saturated phase; a phase `p` is saturated (its count in the flagged-phase
list is one, otherwise zero) if and only if `p` occurs in some task's
`PreferredPhases` and the occurrence-weighted demand on `p` strictly exceeds
the occurrence-weighted supply on `p` — each occurrence of `p` in a task's
`PreferredPhases` adds the task's full `Duration`, and each occurrence in a
worker's `AvailableSlots` adds the worker's full `MaxLoadPerPhase`.  Each
finding carries the computed demand and supply. -/
theorem c5_phase_saturation (d : DataSet) (p : Int) :
    validatePhaseSlotSaturation d
      = (saturatedPhases d).map (fun q => mkSaturationFinding q (occDemand d q) (occSupply d q))
    ∧ (saturatedPhases d).count p
      = if (∃ t ∈ d.tasks, p ∈ t.PreferredPhases) ∧ occSupply d p < occDemand d p
        then 1 else 0 := by
  have hentry : ∀ kv ∈ phaseDemandMap d, kv.2 = occDemand d kv.1 := by
    intro kv hkv
    rw [← lookup_phaseDemandMap]
    exact (lookup_of_mem_nodup _ (phaseDemandMap_keys_nodup d) kv hkv).symm
  constructor
  · show (phaseDemandMap d).flatMap
        (fun kv => if lookupOr0 (phaseSupplyMap d) kv.1 < kv.2
          then [mkSaturationFinding kv.1 kv.2 (lookupOr0 (phaseSupplyMap d) kv.1)] else [])
      = _
    rw [flatMap_dif_singleton (fun kv : Int × Int => lookupOr0 (phaseSupplyMap d) kv.1 < kv.2)
      (fun kv : Int × Int => mkSaturationFinding kv.1 kv.2 (lookupOr0 (phaseSupplyMap d) kv.1))]
    rw [saturatedPhases, List.map_map]
    apply List.map_congr_left
    intro kv hkv
    rw [List.mem_filter] at hkv
    have h2 := hentry kv hkv.1
    simp only [Function.comp]
    rw [h2, lookup_phaseSupplyMap]
  · have hnd : (saturatedPhases d).Nodup := by
      rw [saturatedPhases]
      exact (phaseDemandMap_keys_nodup d).sublist ((List.filter_sublist _).map Prod.fst)
    have hmem : p ∈ saturatedPhases d
        ↔ (∃ t ∈ d.tasks, p ∈ t.PreferredPhases) ∧ occSupply d p < occDemand d p := by
      rw [saturatedPhases]
      constructor
      · intro h
        obtain ⟨kv, hkv, rfl⟩ := List.mem_map.mp h
        rw [List.mem_filter] at hkv
        have h2 := hentry kv hkv.1
        have hlt := of_decide_eq_true hkv.2
        rw [lookup_phaseSupplyMap, h2] at hlt
        exact ⟨(mem_phaseDemandMap_keys d kv.1).mp (List.mem_map.mpr ⟨kv, hkv.1, rfl⟩), hlt⟩
      · rintro ⟨hoccurs, hlt⟩
        obtain ⟨kv, hkv, hfst⟩ :=
          List.mem_map.mp ((mem_phaseDemandMap_keys d p).mpr hoccurs)
        refine List.mem_map.mpr ⟨kv, List.mem_filter.mpr ⟨hkv, decide_eq_true ?_⟩, hfst⟩
        rw [lookup_phaseSupplyMap, hentry kv hkv, hfst]
        exact hlt
    by_cases hc : (∃ t ∈ d.tasks, p ∈ t.PreferredPhases) ∧ occSupply d p < occDemand d p
    · rw [if_pos hc]
      exact List.count_eq_one_of_mem hnd (hmem.mpr hc)
    · rw [if_neg hc]
      exact List.count_eq_zero_of_not_mem (fun h => hc (hmem.mp h))

def c5Task : Task :=
  { TaskID := "T1", TaskName := "T", Category := "", Duration := 5,
    RequiredSkills := [], PreferredPhases := [2, 2], MaxConcurrent := 1 }

def c5Worker : Worker :=
  { WorkerID := "W1", WorkerName := "N", Skills := [], AvailableSlots := [2],
    MaxLoadPerPhase := 7, WorkerGroup := "", QualificationLevel := "" }

def c5Data : DataSet := { clients := [], workers := [c5Worker], tasks := [c5Task] }

/-- C5, counterexample to the claim as stated: one task of Duration 5 whose
`PreferredPhases` list is `[2, 2]` against one worker with
`MaxLoadPerPhase = 7` available in phase 2.  Per-task demand on phase 2 is 5,
which does not exceed the supply 7, so the claim predicts no warning for
phase 2 — but the rule adds the duration once per list occurrence (demand
10 > 7) and emits exactly one saturation warning for phase 2. -/
theorem c5_counterexample :
    ¬ (((validatePhaseSlotSaturation c5Data).countP
          (fun e => e.entityId == "Phase 2") = 1)
        ↔ claimPhaseSupply c5Data 2 < claimPhaseDemand c5Data 2) := by
  decide

/-! ## C8 -/

theorem dupScan_ne_empty : ∀ (ids seen : List String), "" ∉ dupScan seen ids := by
  intro ids
  induction ids with
  | nil => intro seen; simp [dupScan]
  | cons w rest ih =>
      intro seen
      by_cases hw : w = ""
      · rw [dupScan, if_pos (by simp [hw])]
        exact ih seen
      · rw [dupScan, if_neg (by simp [hw])]
        by_cases hs : (seen.contains w) = true
        · rw [if_pos hs]
          intro hmem
          rcases List.mem_cons.mp hmem with h | h
          · exact hw h.symm
          · exact ih seen h
        · rw [if_neg hs]
          exact ih (w :: seen)

theorem dupScan_nodup (ids : List String)
    (hbound : ∀ v ∈ ids, ids.count v ≤ 2) : (dupScan [] ids).Nodup := by
  rw [List.nodup_iff_count_le_one]
  intro a
  by_cases ha : a = ""
  · have := List.count_eq_zero_of_not_mem (ha ▸ dupScan_ne_empty ids [])
    omega
  · rw [dupScan_count a ha ids [], if_neg (List.not_mem_nil a)]
    by_cases hmem : a ∈ ids
    · have := hbound a hmem
      omega
    · have := List.count_eq_zero_of_not_mem hmem
      omega

theorem string_append_left_injective (p : String) :
    Function.Injective (fun s => p ++ s) := by
  intro a b h
  have hd := congrArg String.data h
  simp only [String.data_append] at hd
  exact String.ext (List.append_inj_right hd rfl)

theorem append_ne_of_tenth {p q : String} (hp : 10 < p.data.length) (hq : 10 < q.data.length)
    (hne : p.data[10]? ≠ q.data[10]?) (a b : String) : p ++ a ≠ q ++ b := by
  intro h
  apply hne
  have hd := congrArg String.data h
  simp only [String.data_append] at hd
  calc p.data[10]? = (p.data ++ a.data)[10]? := (List.getElem?_append_left hp).symm
    _ = (q.data ++ b.data)[10]? := by rw [hd]
    _ = q.data[10]? := List.getElem?_append_left hq

/-- C8 (amended): duplicate-ID findings carry pairwise-distinct identifiers
whenever each ID value occurs at most twice in its collection; identifiers
are not distinct within one report in general (a rule firing repeatedly for
the same entity repeats the identifier, see the counterexample). -/
theorem c8_duplicate_rule_ids_nodup (d : DataSet)
    (hc : ∀ v ∈ d.clients.map Client.ClientID, (d.clients.map Client.ClientID).count v ≤ 2)
    (hw : ∀ v ∈ d.workers.map Worker.WorkerID, (d.workers.map Worker.WorkerID).count v ≤ 2)
    (ht : ∀ v ∈ d.tasks.map Task.TaskID, (d.tasks.map Task.TaskID).count v ≤ 2) :
    ((validateDuplicateIDs d).map ValidationError.id).Nodup := by
  have hids : (validateDuplicateIDs d).map ValidationError.id
      = (dupScan [] (d.clients.map Client.ClientID)).map (fun v => "duplicate-client-" ++ v)
        ++ (dupScan [] (d.workers.map Worker.WorkerID)).map (fun v => "duplicate-worker-" ++ v)
        ++ (dupScan [] (d.tasks.map Task.TaskID)).map (fun v => "duplicate-task-" ++ v) := by
    rw [validateDuplicateIDs, List.map_append, List.map_append,
      List.map_map, List.map_map, List.map_map]
    rfl
  rw [hids]
  have hcw : (10 : Nat) < ("duplicate-client-").data.length := by decide
  have hww : (10 : Nat) < ("duplicate-worker-").data.length := by decide
  have htw : (10 : Nat) < ("duplicate-task-").data.length := by decide
  have hA : ((dupScan [] (d.clients.map Client.ClientID)).map
      (fun v => "duplicate-client-" ++ v)).Nodup :=
    (dupScan_nodup _ hc).map (string_append_left_injective _)
  have hB : ((dupScan [] (d.workers.map Worker.WorkerID)).map
      (fun v => "duplicate-worker-" ++ v)).Nodup :=
    (dupScan_nodup _ hw).map (string_append_left_injective _)
  have hC : ((dupScan [] (d.tasks.map Task.TaskID)).map
      (fun v => "duplicate-task-" ++ v)).Nodup :=
    (dupScan_nodup _ ht).map (string_append_left_injective _)
  have hdisjAB : ((dupScan [] (d.clients.map Client.ClientID)).map
      (fun v => "duplicate-client-" ++ v)).Disjoint
      ((dupScan [] (d.workers.map Worker.WorkerID)).map (fun v => "duplicate-worker-" ++ v)) := by
    intro x hx hy
    obtain ⟨a, _, rfl⟩ := List.mem_map.mp hx
    obtain ⟨b, _, hba⟩ := List.mem_map.mp hy
    exact append_ne_of_tenth hww hcw (by decide) b a hba
  have hdisjAC : ((dupScan [] (d.clients.map Client.ClientID)).map
      (fun v => "duplicate-client-" ++ v)).Disjoint
      ((dupScan [] (d.tasks.map Task.TaskID)).map (fun v => "duplicate-task-" ++ v)) := by
    intro x hx hy
    obtain ⟨a, _, rfl⟩ := List.mem_map.mp hx
    obtain ⟨b, _, hba⟩ := List.mem_map.mp hy
    exact append_ne_of_tenth htw hcw (by decide) b a hba
  have hdisjBC : ((dupScan [] (d.workers.map Worker.WorkerID)).map
      (fun v => "duplicate-worker-" ++ v)).Disjoint
      ((dupScan [] (d.tasks.map Task.TaskID)).map (fun v => "duplicate-task-" ++ v)) := by
    intro x hx hy
    obtain ⟨a, _, rfl⟩ := List.mem_map.mp hx
    obtain ⟨b, _, hba⟩ := List.mem_map.mp hy
    exact append_ne_of_tenth htw hww (by decide) b a hba
  refine List.Nodup.append (List.Nodup.append hA hB hdisjAB) hC ?_
  intro x hx hy
  rcases List.mem_append.mp hx with h | h
  · exact hdisjAC h hy
  · exact hdisjBC h hy

def c8Worker : Worker :=
  { WorkerID := "W1", WorkerName := "N", Skills := ["s"], AvailableSlots := [0, 0],
    MaxLoadPerPhase := 1, WorkerGroup := "", QualificationLevel := "" }

def c8Data : DataSet := { clients := [], workers := [c8Worker], tasks := [] }

/-- C8, counterexample to the claim as stated: a worker with two invalid
`AvailableSlots` entries receives two malformed-list findings that carry the
same identifier (`malformed-slots-` + WorkerID), so the identifiers within
one report are not pairwise distinct. -/
theorem c8_counterexample :
    ¬ ((((validateDataSet c8Data).errors ++ (validateDataSet c8Data).warnings).map
          ValidationError.id).Nodup) := by
  decide

def c8Client (idv : String) : Client :=
  { ClientID := idv, ClientName := "B", PriorityLevel := 2, RequestedTaskIDs := [],
    GroupTag := "", AttributesJSON := JSValue.obj [] }

def c8GoodData : DataSet :=
  { clients := [c8Client "C1", c8Client "C1"]
    workers := [{ WorkerID := "W1", WorkerName := "N", Skills := ["s"], AvailableSlots := [1],
                  MaxLoadPerPhase := 1, WorkerGroup := "", QualificationLevel := "" }]
    tasks := [] }

theorem c8_witness :
    ((validateDuplicateIDs c8GoodData).map ValidationError.id).Nodup :=
  c8_duplicate_rule_ids_nodup c8GoodData (by decide) (by decide) (by decide)

end DataAlchemist
